import Mathlib

/-!
Shallow embedding of the STM32L4 RTC driver (`src/rtc.rs`).

Machine integers are modelled as `Nat` with explicit `% 2^w` where the Rust
code can wrap (u8 shifts, u16 subtraction, register field masks).  The
memory-mapped peripheral is modelled as an explicit record `RtcState` holding
the register fields the driver touches, plus a small hardware model:

* the write-protect register `WPR` is a key-sequence state machine
  (`locked → key1 → unlocked`; any byte outside the `0xCA, 0x53` sequence
  re-locks it);
* writes to the protected time/date/control fields take effect only while the
  registers are unlocked (and, for the calendar registers, while init mode is
  active), mirroring the hardware gate the unlock protocol exists for;
* the init-mode handshake is modelled as immediately responsive: setting the
  `INIT` request bit makes the `INITF` status flag read back set, and clearing
  it clears the flag, so the driver's polling loop takes one iteration;
* every register write performed by the driver (and the `ISR` reads of the
  init-mode handshake) is recorded in an event trace, so that sequencing
  properties of the protocol can be stated over the trace.

Field widths come from the SVD layout used by the driver
(`TR`: SU 4, ST 3, MNU 4, MNT 3, HU 4, HT 2, PM 1;
 `DR`: DU 4, DT 2, MU 4, MT 1, WDU 3, YU 4, YT 4); the svd2rust `.bits()`
setters mask their argument to the field width, which the model reproduces.
-/

/-- Wall-clock time value object (`struct Time`): u8 fields plus the
daylight-savings flag the driver stores in the `FMT` control bit. -/
structure Time where
  hours : Nat
  minutes : Nat
  seconds : Nat
  daylight_savings : Bool
deriving DecidableEq, Repr

/-- Calendar date value object (`struct Date`): weekday `day`, day-of-month
`date`, `month` as u8 and the absolute `year` as u16. -/
structure Date where
  day : Nat
  date : Nat
  month : Nat
  year : Nat
deriving DecidableEq, Repr

/-- The loop of `byte_to_bcd2`: while `value >= 10`, increment `bcd_high` and
subtract 10 from `value`. -/
def byte_to_bcd2_go (bcd_high value : Nat) : Nat × Nat :=
  if 10 ≤ value then byte_to_bcd2_go (bcd_high + 1) (value - 10)
  else (bcd_high, value)
termination_by value
decreasing_by omega

/-- `fn byte_to_bcd2(byte: u8) -> (u8, u8)`: the returned pair is
`(bcd_high, (bcd_high << 4) | value)`, where the u8 shift wraps mod 256. -/
def byte_to_bcd2 (byte : Nat) : Nat × Nat :=
  let p := byte_to_bcd2_go 0 byte
  (p.1, ((p.1 <<< 4) % 256) ||| p.2)

/-- `fn bcd2_to_byte(bcd: (u8, u8)) -> u8`: recombine `value = bcd.1 | bcd.0 << 4`
(u8 shift wraps mod 256), then `((value & 0xF0) >> 4) * 10 + (value & 0x0F)`.
Rust's `bcd.0`/`bcd.1` are the first/second components. -/
def bcd2_to_byte (bcd : Nat × Nat) : Nat :=
  let value := bcd.2 ||| ((bcd.1 <<< 4) % 256)
  ((value &&& 0xF0) >>> 4) * 10 + (value &&& 0x0F)

/-- Closed form of the `byte_to_bcd2` loop: repeated subtraction of 10
computes division and remainder by 10. -/
theorem byte_to_bcd2_go_eq (bcd_high value : Nat) :
    byte_to_bcd2_go bcd_high value = (bcd_high + value / 10, value % 10) := by
  induction value using Nat.strong_induction_on generalizing bcd_high with
  | _ value ih =>
    rw [byte_to_bcd2_go]
    split
    · rw [ih (value - 10) (by omega) (bcd_high + 1)]
      simp only [Prod.mk.injEq]
      omega
    · simp only [Prod.mk.injEq]
      omega

/-- Closed form of `byte_to_bcd2`. -/
theorem byte_to_bcd2_eq (byte : Nat) :
    byte_to_bcd2 byte =
      (byte / 10, (((byte / 10) <<< 4) % 256) ||| byte % 10) := by
  simp [byte_to_bcd2, byte_to_bcd2_go_eq]

/-- Write-protection key-sequence state of the `WPR` register. -/
inductive WpState
  | locked
  | key1
  | unlocked
deriving DecidableEq, Repr

/-- Hardware model of a byte written to `WPR`: `0xCA` starts the key
sequence, `0x53` right after `0xCA` unlocks, any other byte re-locks. -/
def wpStep (w : WpState) (b : Nat) : WpState :=
  if b = 0xCA then WpState.key1
  else if b = 0x53 then
    (if w = WpState.key1 then WpState.unlocked else WpState.locked)
  else WpState.locked

/-- Register events recorded while the driver runs: writes to `WPR`, the
time/control/date field mutations, and the `ISR` accesses of the init-mode
handshake. -/
inductive Ev
  | wpr (b : Nat)
  | trW
  | crW
  | drW
  | isrW (init : Bool)
  | isrR (initf : Bool)
deriving DecidableEq, Repr

/-- The RTC register fields the driver touches, plus the write-protect
state machine. -/
structure RtcState where
  tr_pm : Bool
  tr_ht : Nat
  tr_hu : Nat
  tr_mnt : Nat
  tr_mnu : Nat
  tr_st : Nat
  tr_su : Nat
  cr_fmt : Bool
  dr_wdu : Nat
  dr_dt : Nat
  dr_du : Nat
  dr_mt : Bool
  dr_mu : Nat
  dr_yt : Nat
  dr_yu : Nat
  isr_init : Bool
  isr_initf : Bool
  wp : WpState
deriving DecidableEq, Repr

/-- `fn write_protection(rtc: &RTC, enable: bool)`: lock with a single `0xFF`
write, unlock with the `0xCA` then `0x53` key sequence. -/
def write_protection (s : RtcState) (enable : Bool) : RtcState × List Ev :=
  if enable then
    ({ s with wp := wpStep s.wp 0xFF }, [Ev.wpr 0xFF])
  else
    ({ s with wp := wpStep (wpStep s.wp 0xCA) 0x53 },
     [Ev.wpr 0xCA, Ev.wpr 0x53])

/-- `fn init_mode(rtc: &RTC, enabled: bool)`: on entry, read `ISR`; if `INITF`
is already set, return (idempotent); otherwise write the `INIT` request bit
and poll `INITF` until set — the modelled peripheral grants init mode
immediately, so the poll is a single read.  On exit, clear `INIT` (the
modelled peripheral then clears `INITF`). -/
def init_mode (s : RtcState) (enabled : Bool) : RtcState × List Ev :=
  if enabled then
    if s.isr_initf then (s, [Ev.isrR true])
    else
      ({ s with isr_init := true, isr_initf := true },
       [Ev.isrR false, Ev.isrW true, Ev.isrR true])
  else
    ({ s with isr_init := false, isr_initf := false }, [Ev.isrW false])

/-- `self.rtc.tr.write(..)`: effective only while the registers are unlocked
and init mode is active; each `.bits()` setter masks to the field width
(HT 2 bits, HU 4, MNT 3, MNU 4, ST 3, SU 4). -/
def tr_write (s : RtcState) (pm : Bool) (ht hu mnt mnu st su : Nat) :
    RtcState :=
  if s.wp = WpState.unlocked ∧ s.isr_initf = true then
    { s with tr_pm := pm, tr_ht := ht % 4, tr_hu := hu % 16,
             tr_mnt := mnt % 8, tr_mnu := mnu % 16,
             tr_st := st % 8, tr_su := su % 16 }
  else s

/-- `self.rtc.cr.modify(.. w.fmt().bit(..))`: effective only while the
registers are unlocked; only the `FMT` bit is changed. -/
def cr_fmt_modify (s : RtcState) (fmt : Bool) : RtcState :=
  if s.wp = WpState.unlocked then { s with cr_fmt := fmt } else s

/-- `self.rtc.dr.write(..)`: effective only while unlocked and in init mode;
field widths DT 2, DU 4, MT 1 (a single bit, written via `.bit(mt > 0)`),
MU 4, YT 4, YU 4, WDU 3. -/
def dr_write (s : RtcState) (dt du : Nat) (mt : Bool) (mu yt yu wdu : Nat) :
    RtcState :=
  if s.wp = WpState.unlocked ∧ s.isr_initf = true then
    { s with dr_dt := dt % 4, dr_du := du % 16, dr_mt := mt,
             dr_mu := mu % 16, dr_yt := yt % 16, dr_yu := yu % 16,
             dr_wdu := wdu % 8 }
  else s

/-- `Rtc::set_time`: unlock, enter init mode, BCD-encode the three time
fields, write `TR` with `PM` cleared, set `CR.FMT` to the caller's
daylight-savings flag, exit init mode, re-lock. -/
def set_time (s : RtcState) (t : Time) : RtcState × List Ev :=
  let r1 := write_protection s false
  let r2 := init_mode r1.1 true
  let s3 := tr_write r2.1 false
      (byte_to_bcd2 t.hours).1 (byte_to_bcd2 t.hours).2
      (byte_to_bcd2 t.minutes).1 (byte_to_bcd2 t.minutes).2
      (byte_to_bcd2 t.seconds).1 (byte_to_bcd2 t.seconds).2
  let s4 := cr_fmt_modify s3 t.daylight_savings
  let r5 := init_mode s4 false
  let r6 := write_protection r5.1 true
  (r6.1, r1.2 ++ r2.2 ++ [Ev.trW, Ev.crW] ++ r5.2 ++ r6.2)

/-- `Rtc::get_time`: read `TR` and `CR` directly and BCD-decode; the source
then calls `write_protection(.., true)` (a lock write), which the model
records. -/
def get_time (s : RtcState) : Time × RtcState × List Ev :=
  let t : Time :=
    { hours := bcd2_to_byte (s.tr_ht, s.tr_hu),
      minutes := bcd2_to_byte (s.tr_mnt, s.tr_mnu),
      seconds := bcd2_to_byte (s.tr_st, s.tr_su),
      daylight_savings := s.cr_fmt }
  let r := write_protection s true
  (t, r.1, r.2)

/-- Rust debug-build u16 subtraction: panics (here `none`) on underflow. -/
def u16_checked_sub (a b : Nat) : Option Nat :=
  if b ≤ a then some (a - b) else none

/-- Rust release-build u16 subtraction: wraps modulo `2^16`. -/
def u16_wrapping_sub (a b : Nat) : Nat :=
  (a + 65536 - b % 65536) % 65536

/-- The u16 byte fed to the BCD encoder by `set_date`:
`(date.year - 1970_u16) as u8` with Rust release-mode (wrapping)
subtraction semantics, then truncation to u8. -/
def set_date_year_byte (year : Nat) : Nat :=
  u16_wrapping_sub year 1970 % 256

/-- `Rtc::set_date`: unlock, enter init mode, BCD-encode day-of-month, month
and the epoch-offset year, write `DR` (weekday raw, month-tens as the bit
`mt > 0`), exit init mode, re-lock. -/
def set_date (s : RtcState) (d : Date) : RtcState × List Ev :=
  let r1 := write_protection s false
  let r2 := init_mode r1.1 true
  let s3 := dr_write r2.1
      (byte_to_bcd2 d.date).1 (byte_to_bcd2 d.date).2
      (decide (0 < (byte_to_bcd2 d.month).1)) (byte_to_bcd2 d.month).2
      (byte_to_bcd2 (set_date_year_byte d.year)).1
      (byte_to_bcd2 (set_date_year_byte d.year)).2
      d.day
  let r4 := init_mode s3 false
  let r5 := write_protection r4.1 true
  (r5.1, r1.2 ++ r2.2 ++ [Ev.drW] ++ r4.2 ++ r5.2)

/-- `Rtc::get_date`: read `DR` only (no write, no mode change), BCD-decode,
and add the 1970 epoch back to the two-digit year. -/
def get_date (s : RtcState) : Date :=
  { day := s.dr_wdu,
    date := bcd2_to_byte (s.dr_dt, s.dr_du),
    month := bcd2_to_byte ((if s.dr_mt then 1 else 0), s.dr_mu),
    year := bcd2_to_byte (s.dr_yt, s.dr_yu) + 1970 }

/-- A read operation: `get_time` or `get_date`. -/
inductive GetOp
  | time
  | date
deriving DecidableEq, Repr

/-- Run a sequence of read operations, collecting the register events they
produce (`get_date` performs no writes at all). -/
def runGets : List GetOp → RtcState → RtcState × List Ev
  | [], s => (s, [])
  | GetOp.time :: rest, s =>
      let r := get_time s
      let rr := runGets rest r.2.1
      (rr.1, r.2.2 ++ rr.2)
  | GetOp.date :: rest, s =>
      runGets rest s

/-- A concrete reset-like register state used to instantiate theorems. -/
def rtc0 : RtcState :=
  { tr_pm := false, tr_ht := 0, tr_hu := 0, tr_mnt := 0, tr_mnu := 0,
    tr_st := 0, tr_su := 0, cr_fmt := false, dr_wdu := 1, dr_dt := 0,
    dr_du := 1, dr_mt := false, dr_mu := 1, dr_yt := 0, dr_yu := 0,
    isr_init := false, isr_initf := false, wp := WpState.locked }

/-- `rtc0` with init mode already reported active. -/
def rtc0_init : RtcState :=
  { rtc0 with isr_init := true, isr_initf := true }

/-- Writing the lock byte `0xFF` locks the registers from any key state. -/
theorem wpStep_lock (w : WpState) : wpStep w 0xFF = WpState.locked := rfl

/-- The two-byte key sequence `0xCA` then `0x53` unlocks from any state. -/
theorem wpStep_unlock (w : WpState) :
    wpStep (wpStep w 0xCA) 0x53 = WpState.unlocked := rfl

/-- The register state after `set_time`: `TR` holds the masked BCD
encodings with `PM` cleared, `CR.FMT` holds the daylight-savings flag, init
mode is exited and the registers are locked again. -/
theorem set_time_state (s : RtcState) (t : Time) :
    (set_time s t).1 =
      { s with
          tr_pm := false
          tr_ht := (byte_to_bcd2 t.hours).1 % 4
          tr_hu := (byte_to_bcd2 t.hours).2 % 16
          tr_mnt := (byte_to_bcd2 t.minutes).1 % 8
          tr_mnu := (byte_to_bcd2 t.minutes).2 % 16
          tr_st := (byte_to_bcd2 t.seconds).1 % 8
          tr_su := (byte_to_bcd2 t.seconds).2 % 16
          cr_fmt := t.daylight_savings
          isr_init := false
          isr_initf := false
          wp := WpState.locked } := by
  cases h : s.isr_initf <;>
    simp [set_time, write_protection, init_mode, tr_write, cr_fmt_modify,
      wpStep, h]

/-- The event trace of `set_time`: unlock keys, the init-mode handshake,
the `TR` and `CR` mutations, the init-mode exit write, and the lock byte. -/
theorem set_time_trace (s : RtcState) (t : Time) :
    (set_time s t).2 =
      Ev.wpr 0xCA :: Ev.wpr 0x53 ::
        ((if s.isr_initf then [Ev.isrR true]
          else [Ev.isrR false, Ev.isrW true, Ev.isrR true]) ++
         [Ev.trW, Ev.crW, Ev.isrW false, Ev.wpr 0xFF]) := by
  cases h : s.isr_initf <;>
    simp [set_time, write_protection, init_mode, h]

/-- The register state after `set_date`: `DR` holds the masked BCD
encodings (weekday raw, month-tens as a bit), init mode is exited and the
registers are locked again. -/
theorem set_date_state (s : RtcState) (d : Date) :
    (set_date s d).1 =
      { s with
          dr_dt := (byte_to_bcd2 d.date).1 % 4
          dr_du := (byte_to_bcd2 d.date).2 % 16
          dr_mt := decide (0 < (byte_to_bcd2 d.month).1)
          dr_mu := (byte_to_bcd2 d.month).2 % 16
          dr_yt := (byte_to_bcd2 (set_date_year_byte d.year)).1 % 16
          dr_yu := (byte_to_bcd2 (set_date_year_byte d.year)).2 % 16
          dr_wdu := d.day % 8
          isr_init := false
          isr_initf := false
          wp := WpState.locked } := by
  cases h : s.isr_initf <;>
    simp [set_date, write_protection, init_mode, dr_write, wpStep, h]

/-- The event trace of `set_date`. -/
theorem set_date_trace (s : RtcState) (d : Date) :
    (set_date s d).2 =
      Ev.wpr 0xCA :: Ev.wpr 0x53 ::
        ((if s.isr_initf then [Ev.isrR true]
          else [Ev.isrR false, Ev.isrW true, Ev.isrR true]) ++
         [Ev.drW, Ev.isrW false, Ev.wpr 0xFF]) := by
  cases h : s.isr_initf <;>
    simp [set_date, write_protection, init_mode, h]

/-- Storing an encoded value below 24 through the 2-bit/4-bit `HT`/`HU`
fields and decoding recovers the value. -/
theorem bcd_field_roundtrip_24 :
    ∀ v, v < 24 →
      bcd2_to_byte ((byte_to_bcd2 v).1 % 4, (byte_to_bcd2 v).2 % 16) = v := by
  simp only [byte_to_bcd2_eq]
  decide

/-- Storing an encoded value below 60 through the 3-bit/4-bit tens/units
fields and decoding recovers the value. -/
theorem bcd_field_roundtrip_60 :
    ∀ v, v < 60 →
      bcd2_to_byte ((byte_to_bcd2 v).1 % 8, (byte_to_bcd2 v).2 % 16) = v := by
  simp only [byte_to_bcd2_eq]
  decide

/-- Events a pure read path may produce: `WPR` writes that are not part of
the `0xCA`/`0x53` unlock sequence, and `ISR` reads.  Excludes every
time/date/control mutation and every `ISR` (mode) write. -/
def read_safe_ev : Ev → Bool
  | Ev.wpr b => !(b == 0xCA) && !(b == 0x53)
  | Ev.isrR _ => true
  | _ => false

/-- `ISR` handshake events (the reads and the request-bit write of the
init-mode entry). -/
def is_isr_ev : Ev → Bool
  | Ev.isrR _ => true
  | Ev.isrW _ => true
  | _ => false

/-- From a locked state, any sequence of reads keeps the registers locked,
and every event the reads produce is read-safe. -/
theorem runGets_locked (ops : List GetOp) (s : RtcState)
    (h : s.wp = WpState.locked) :
    (runGets ops s).1.wp = WpState.locked ∧
    (runGets ops s).2.all read_safe_ev = true := by
  induction ops generalizing s with
  | nil => simpa [runGets]
  | cons op rest ih =>
    cases op with
    | time =>
      have h' : (get_time s).2.1.wp = WpState.locked := by
        simp [get_time, write_protection, wpStep]
      have htr : (get_time s).2.2 = [Ev.wpr 0xFF] := by
        simp [get_time, write_protection]
      obtain ⟨h1, h2⟩ := ih (get_time s).2.1 h'
      refine ⟨h1, ?_⟩
      simp only [runGets, List.all_append, htr, h2]
      rfl
    | date =>
      obtain ⟨h1, h2⟩ := ih s h
      exact ⟨by simpa [runGets] using h1, by simpa [runGets] using h2⟩

/-- C2: for every integer `v` in `0..=99`, decoding the encoder's output
returns `v`: `bcd2_to_byte (byte_to_bcd2 v) = v` (the round-trip law). -/
theorem c2_bcd_roundtrip : ∀ v, v < 100 → bcd2_to_byte (byte_to_bcd2 v) = v := by
  simp only [byte_to_bcd2_eq]
  decide

/-- Witness for C2 at `v = 59`. -/
theorem c2_bcd_roundtrip_witness : bcd2_to_byte (byte_to_bcd2 59) = 59 :=
  c2_bcd_roundtrip 59 (by decide)

/-- C8: the BCD encoder does not validate its input: for every byte `v` with
`100 ≤ v ≤ 255`, `byte_to_bcd2 v` returns a high-nibble count exceeding 9
rather than failing. -/
theorem c8_bcd_no_validation (v : Nat) (h1 : 100 ≤ v) (h2 : v ≤ 255) :
    9 < (byte_to_bcd2 v).1 := by
  rw [byte_to_bcd2_eq]
  show 9 < v / 10
  omega

/-- Witness for C8 at `v = 100`. -/
theorem c8_bcd_no_validation_witness : 9 < (byte_to_bcd2 100).1 :=
  c8_bcd_no_validation 100 (by decide) (by decide)

/-- C9: the BCD encoder returns exactly these `(highNibble, packedByte)`
pairs at 0, 9, 10, 59 and 99. -/
theorem c9_bcd_concrete :
    byte_to_bcd2 0 = (0, 0x00) ∧ byte_to_bcd2 9 = (0, 0x09) ∧
    byte_to_bcd2 10 = (1, 0x10) ∧ byte_to_bcd2 59 = (5, 0x59) ∧
    byte_to_bcd2 99 = (9, 0x99) := by
  simp only [byte_to_bcd2_eq]
  decide

/-- C10: `set_date`'s epoch subtraction `date.year - 1970_u16` requires
`year ≥ 1970`: for `year < 1970` it underflows (debug-build subtraction
panics, release-build subtraction wraps modulo `2^16`), while for
`1970 ≤ year ≤ 2069` the byte handed to the BCD encoder is exactly
`year - 1970`. -/
theorem c10_year_epoch_underflow (y : Nat) (hy : y < 65536) :
    (y < 1970 →
      u16_checked_sub y 1970 = none ∧
      u16_wrapping_sub y 1970 = y + 65536 - 1970) ∧
    (1970 ≤ y → y ≤ 2069 →
      set_date_year_byte y = y - 1970 ∧
      u16_checked_sub y 1970 = some (y - 1970)) := by
  refine ⟨fun h => ⟨?_, ?_⟩, fun h1 h2 => ⟨?_, ?_⟩⟩
  · simp only [u16_checked_sub]
    rw [if_neg (by omega)]
  · simp only [u16_wrapping_sub]
    omega
  · simp only [set_date_year_byte, u16_wrapping_sub]
    omega
  · simp only [u16_checked_sub]
    rw [if_pos (by omega)]

/-- Witness for C10 at `year = 1969` (underflow) and `year = 2024`. -/
theorem c10_year_epoch_underflow_witness :
    u16_checked_sub 1969 1970 = none ∧
    set_date_year_byte 2024 = 2024 - 1970 :=
  ⟨((c10_year_epoch_underflow 1969 (by decide)).1 (by decide)).1,
   ((c10_year_epoch_underflow 2024 (by decide)).2 (by decide) (by decide)).1⟩

/-- C1: reads do not mutate the protection state: after a `set_time`, any
sequence of `get_time`/`get_date` calls leaves the write-protection lock
state observed by a subsequent `set_time` unchanged, and the reads perform
no unlock-key write and no init-mode write. -/
theorem c1_reads_preserve_wp (s : RtcState) (t : Time) (ops : List GetOp) :
    (runGets ops (set_time s t).1).1.wp = (set_time s t).1.wp ∧
    (runGets ops (set_time s t).1).2.all read_safe_ev = true := by
  have hl : (set_time s t).1.wp = WpState.locked := by rw [set_time_state]
  obtain ⟨h1, h2⟩ := runGets_locked ops _ hl
  exact ⟨h1.trans hl.symm, h2⟩

/-- C3: over the register model, `get_time` after `set_time t` reproduces
`t`'s hours, minutes and seconds exactly, and the format flag (carrying the
daylight-savings indicator) is tracked alongside. -/
theorem c3_time_set_get_roundtrip (s : RtcState) (t : Time)
    (hh : t.hours < 24) (hm : t.minutes < 60) (hsec : t.seconds < 60) :
    (get_time (set_time s t).1).1.hours = t.hours ∧
    (get_time (set_time s t).1).1.minutes = t.minutes ∧
    (get_time (set_time s t).1).1.seconds = t.seconds ∧
    (get_time (set_time s t).1).1.daylight_savings = t.daylight_savings := by
  rw [set_time_state]
  exact ⟨bcd_field_roundtrip_24 t.hours hh,
         bcd_field_roundtrip_60 t.minutes hm,
         bcd_field_roundtrip_60 t.seconds hsec, rfl⟩

/-- Witness for C3 at `Time 23 59 59 false` and `Time 0 0 0 true` from the
concrete state `rtc0`. -/
theorem c3_time_set_get_roundtrip_witness :
    ((get_time (set_time rtc0 ⟨23, 59, 59, false⟩).1).1.hours = 23 ∧
     (get_time (set_time rtc0 ⟨23, 59, 59, false⟩).1).1.minutes = 59 ∧
     (get_time (set_time rtc0 ⟨23, 59, 59, false⟩).1).1.seconds = 59 ∧
     (get_time (set_time rtc0 ⟨23, 59, 59, false⟩).1).1.daylight_savings
       = false) ∧
    ((get_time (set_time rtc0 ⟨0, 0, 0, true⟩).1).1.hours = 0 ∧
     (get_time (set_time rtc0 ⟨0, 0, 0, true⟩).1).1.minutes = 0 ∧
     (get_time (set_time rtc0 ⟨0, 0, 0, true⟩).1).1.seconds = 0 ∧
     (get_time (set_time rtc0 ⟨0, 0, 0, true⟩).1).1.daylight_savings
       = true) :=
  ⟨c3_time_set_get_roundtrip rtc0 ⟨23, 59, 59, false⟩
     (by decide) (by decide) (by decide),
   c3_time_set_get_roundtrip rtc0 ⟨0, 0, 0, true⟩
     (by decide) (by decide) (by decide)⟩

/-- C4: `set_date` with weekday 3, day-of-month 15, month 6, year 2024
stores the year internally as BCD 54 (tens nibble 5, units nibble 4) and a
following `get_date` translates back to 2024 by adding the 1970 epoch. -/
theorem c4_date_epoch_translation (s : RtcState) :
    (set_date s ⟨3, 15, 6, 2024⟩).1.dr_yt = 5 ∧
    (set_date s ⟨3, 15, 6, 2024⟩).1.dr_yu = 4 ∧
    (get_date (set_date s ⟨3, 15, 6, 2024⟩).1).year = 2024 := by
  rw [set_date_state]
  refine ⟨?_, ?_, ?_⟩ <;> (simp only [byte_to_bcd2_eq, get_date]; decide)

/-- C5: the event trace of every set operation starts with the unlock keys
`0xCA` then `0x53`, followed only by `ISR` handshake events before the field
mutations, then the init-mode exit write and finally the lock byte `0xFF`;
projecting the trace to the non-`ISR` events, the keys immediately precede
the mutations and the lock byte immediately follows them. -/
theorem c5_write_protect_sequencing (s : RtcState) (t : Time) (d : Date) :
    (∃ polls, polls.all is_isr_ev = true ∧
      (set_time s t).2 =
        Ev.wpr 0xCA :: Ev.wpr 0x53 ::
          (polls ++ [Ev.trW, Ev.crW, Ev.isrW false, Ev.wpr 0xFF])) ∧
    (set_time s t).2.filter (fun e => !is_isr_ev e) =
      [Ev.wpr 0xCA, Ev.wpr 0x53, Ev.trW, Ev.crW, Ev.wpr 0xFF] ∧
    (∃ polls, polls.all is_isr_ev = true ∧
      (set_date s d).2 =
        Ev.wpr 0xCA :: Ev.wpr 0x53 ::
          (polls ++ [Ev.drW, Ev.isrW false, Ev.wpr 0xFF])) ∧
    (set_date s d).2.filter (fun e => !is_isr_ev e) =
      [Ev.wpr 0xCA, Ev.wpr 0x53, Ev.drW, Ev.wpr 0xFF] := by
  rw [set_time_trace, set_date_trace]
  cases h : s.isr_initf with
  | false =>
    exact ⟨⟨[Ev.isrR false, Ev.isrW true, Ev.isrR true], by decide, by decide⟩,
           by decide,
           ⟨[Ev.isrR false, Ev.isrW true, Ev.isrR true], by decide, by decide⟩,
           by decide⟩
  | true =>
    exact ⟨⟨[Ev.isrR true], by decide, by decide⟩, by decide,
           ⟨[Ev.isrR true], by decide, by decide⟩, by decide⟩

/-- C6: entering init mode is idempotent: if `INITF` already reads set, the
state is unchanged and the trace is the single status read (no request-bit
write, no polling); otherwise the request bit is written and the status
flag is polled until it reads set. -/
theorem c6_init_mode_idempotent (s : RtcState) :
    (s.isr_initf = true → init_mode s true = (s, [Ev.isrR true])) ∧
    (s.isr_initf = false →
      init_mode s true =
        ({ s with isr_init := true, isr_initf := true },
         [Ev.isrR false, Ev.isrW true, Ev.isrR true])) := by
  refine ⟨fun h => ?_, fun h => ?_⟩ <;> simp [init_mode, h]

/-- Witness for C6: the already-in-init state `rtc0_init` and the
not-in-init state `rtc0`. -/
theorem c6_init_mode_idempotent_witness :
    init_mode rtc0_init true = (rtc0_init, [Ev.isrR true]) ∧
    init_mode rtc0 true =
      ({ rtc0 with isr_init := true, isr_initf := true },
       [Ev.isrR false, Ev.isrW true, Ev.isrR true]) :=
  ⟨(c6_init_mode_idempotent rtc0_init).1 rfl,
   (c6_init_mode_idempotent rtc0).2 rfl⟩

/-- C7: for every `Time` input, `set_time` leaves the `AM/PM` bit of the
time register cleared (24-hour encoding) and sets the control register's
format flag to the caller's daylight-savings flag. -/
theorem c7_pm_cleared_fmt_tracked (s : RtcState) (t : Time) :
    (set_time s t).1.tr_pm = false ∧
    (set_time s t).1.cr_fmt = t.daylight_savings := by
  rw [set_time_state]
  exact ⟨rfl, rfl⟩
